import Mathlib

/-!
# Verification of the `year_in_review` content-resolution and aggregation engine

Shallow embedding of `src/year_in_review.py`.

Python dictionaries are modelled as association lists (`List (κ × β)`) in
insertion order; every dictionary built by the source has pairwise-distinct
keys.  Machine integers are `Int`/`Nat`; Python floats that hold exact decimal
data (personal ratings, runtime averaging) are modelled as `ℚ`; fallible code
(exceptions) returns `Option`/`Except`.
-/

namespace YearInReview

/-- Python dict read `d.get(k)` / `k in d`: the value stored at key `k`,
or `none` when the key is absent. -/
def dget {κ β : Type} [DecidableEq κ] : List (κ × β) → κ → Option β
  | [], _ => none
  | p :: l, k => if p.1 = k then some p.2 else dget l k

/-- Python `d[k] += v`: add `v` to every entry whose key is `k`
(all dictionaries built by the source have distinct keys, so this is the
one entry for `k`, and a no-op when `k` is absent). -/
def dadd {κ β : Type} [DecidableEq κ] [Add β] (l : List (κ × β)) (k : κ) (v : β) :
    List (κ × β) :=
  l.map (fun p => if p.1 = k then (p.1, p.2 + v) else p)

/-- Python `if k not in d: d[k] = z`: append the key with an initial value
when absent. -/
def dinit {κ β : Type} [DecidableEq κ] (l : List (κ × β)) (k : κ) (z : β) :
    List (κ × β) :=
  if (dget l k).isSome then l else l ++ [(k, z)]

/-- Python `d[k] += v` on a dictionary where `k` is required to be present:
`none` models the `KeyError` raised when it is not. -/
def daddMem {κ β : Type} [DecidableEq κ] [Add β] (l : List (κ × β)) (k : κ) (v : β) :
    Option (List (κ × β)) :=
  if (dget l k).isSome then some (dadd l k v) else none

/-! ## Dates, `datetime` and the `calendar` module -/

/-- A calendar date, as carried by Python `datetime` objects
(`datetime(year, month, day)`; only the date part is ever used). -/
structure Date where
  year : Nat
  month : Nat
  day : Nat
deriving DecidableEq, Repr

def isLeapYear (y : Nat) : Bool :=
  y % 4 == 0 && (y % 100 != 0 || y % 400 == 0)

def daysInMonth (y m : Nat) : Nat :=
  if m = 2 then (if isLeapYear y then 29 else 28)
  else if m = 4 ∨ m = 6 ∨ m = 9 ∨ m = 11 then 30
  else 31

/-- Models the `datetime(year, month, day)` constructor: it validates its
arguments and raises `ValueError` (here `none`) on an invalid date. -/
def datetimeMk (y m d : Nat) : Option Date :=
  if 1 ≤ y ∧ y ≤ 9999 ∧ 1 ≤ m ∧ m ≤ 12 ∧ 1 ≤ d ∧ d ≤ daysInMonth y m then
    some ⟨y, m, d⟩
  else none

/-- Days in the months strictly before month `m` of year `y`
(proleptic Gregorian calendar, as used by `datetime`). -/
def daysBeforeMonth (y m : Nat) : Nat :=
  ((List.range (m - 1)).map (fun i => daysInMonth y (i + 1))).sum

/-- `datetime.date.toordinal`: day number with day 1 = January 1 of year 1. -/
def toordinal (dt : Date) : Nat :=
  let n := dt.year - 1
  n * 365 + n / 4 - n / 100 + n / 400 + daysBeforeMonth dt.year dt.month + dt.day

/-- `datetime.weekday()`: Monday is 0 and Sunday is 6.
January 1 of year 1 is a Monday in the proleptic Gregorian calendar. -/
def Date.weekday (dt : Date) : Nat :=
  (toordinal dt + 6) % 7

/-- `calendar.month_name[i]` (index 0 is the empty string). -/
def monthName : Nat → String
  | 1 => "January"
  | 2 => "February"
  | 3 => "March"
  | 4 => "April"
  | 5 => "May"
  | 6 => "June"
  | 7 => "July"
  | 8 => "August"
  | 9 => "September"
  | 10 => "October"
  | 11 => "November"
  | 12 => "December"
  | _ => ""

/-- `calendar.day_name[i]` for `i = datetime.weekday()` (0 = Monday). -/
def dayName : Nat → String
  | 0 => "Monday"
  | 1 => "Tuesday"
  | 2 => "Wednesday"
  | 3 => "Thursday"
  | 4 => "Friday"
  | 5 => "Saturday"
  | 6 => "Sunday"
  | _ => ""

/-! ## Module-level constants of `year_in_review.py` -/

def STATUS_CODE_OK : Nat := 200
def MAX_CAST : Nat := 15
def MAX_DIRECTORS : Nat := 2
def TOP_N : Nat := 20
def MIN_THRESHOLD : Int := 5
def MIN_THRESHOLD_FOR_DIRECTORS : Int := 2

/-! ## Aggregation-layer data model

Every `WatchedContent` that `main` appends holds a resolved `Content`
(`tmdb_id` present), whose metadata attributes are then all populated by the
constructor's non-empty branch.  `ResolvedContent` is that populated state;
the aggregation report functions below read exactly the attributes the
source reads (`genres`, `actors`, `directors`, `production_companies`,
`is_movie`, `runtime`). -/

structure ResolvedContent where
  title : String
  genres : List String
  is_movie : Bool
  is_series : Bool
  actors : List String
  directors : List String
  production_companies : List String
  release_date : Date
  runtime : Int
deriving DecidableEq, Repr

/-- The `WatchedContent` class: a watch event pairing a piece of content with
platform, watch date and personal rating (a Python float holding an exact
decimal value, modelled as `ℚ`). -/
structure WatchedContentG (α : Type) where
  content : α
  platform : String
  date : Date
  rating : ℚ
deriving DecidableEq, Repr

abbrev WatchedContent := WatchedContentG ResolvedContent

/-! ## Aggregation engine -/

/-- The descending-by-key comparison `sorted(..., reverse=True)` orders by. -/
def descBy {α β : Type} [LinearOrder β] (keyfun : α → β) (a b : α) : Bool :=
  decide (keyfun b ≤ keyfun a)

/-- Models `heapq.nlargest(n, keys, key=keyfun)`: documented as equivalent to
`sorted(keys, key=keyfun, reverse=True)[:n]`. -/
def nlargestKeys {α β : Type} [LinearOrder β] (n : Nat) (l : List α) (keyfun : α → β) :
    List α :=
  (l.mergeSort (descBy keyfun)).take n

/-- Loop body of every sum-ranking report:
`if g not in scores: scores[g] = 0` then `scores[g] += runtime`. -/
def sumStep (rt : Int) (scores : List (String × Int)) (g : String) :
    List (String × Int) :=
  dadd (dinit scores g 0) g rt

/-- The running-total dictionary shared by all sum-ranking reports:
`for c in watched_content: for g in field(c): ... scores[g] += c.content.runtime`. -/
def sumScores (field : ResolvedContent → List String) (ws : List WatchedContent) :
    List (String × Int) :=
  ws.foldl (fun scores c =>
    (field c.content).foldl (sumStep c.content.runtime) scores) []

/-- The printed tail of every ranking report: the top `TOP_N` keys by score,
descending, each with its score (`print("{}: {}".format(x, scores[x]))`). -/
def rankedReport {β : Type} [LinearOrder β] [Zero β] (scores : List (String × β)) :
    List (String × β) :=
  (nlargestKeys TOP_N (scores.map Prod.fst) (fun k => (dget scores k).getD 0)).map
    (fun k => (k, (dget scores k).getD 0))

def get_most_watched_genres (ws : List WatchedContent) : List (String × Int) :=
  rankedReport (sumScores (fun c => c.genres) ws)

def get_most_watched_actors (ws : List WatchedContent) : List (String × Int) :=
  rankedReport (sumScores (fun c => c.actors) ws)

def get_most_watched_production_companies (ws : List WatchedContent) :
    List (String × Int) :=
  rankedReport (sumScores (fun c => c.production_companies) ws)

def get_most_watched_directors (ws : List WatchedContent) : List (String × Int) :=
  rankedReport (sumScores (fun c => c.directors) ws)

/-- Loop body of every average-ranking report: zero-initialisation of both
dictionaries is keyed on membership in `ratings`, then
`ratings[g] += c.rating; amount_watched[g] += 1`. -/
def likedStep (r : ℚ) (st : List (String × ℚ) × List (String × Int)) (g : String) :
    List (String × ℚ) × List (String × Int) :=
  let st' := if (dget st.1 g).isSome then st
             else (st.1 ++ [(g, 0)], st.2 ++ [(g, 0)])
  (dadd st'.1 g r, dadd st'.2 g 1)

/-- The `ratings` / `amount_watched` pair of dictionaries built by every
average-ranking report. -/
def likedTallies (field : ResolvedContent → List String) (ws : List WatchedContent) :
    List (String × ℚ) × List (String × Int) :=
  ws.foldl (fun st c => (field c.content).foldl (likedStep c.rating) st) ([], [])

/-- The `scores` dictionary of an average-ranking report: mean rating per key,
skipping keys whose occurrence count is below the threshold. -/
def likedScores (threshold : Int) (t : List (String × ℚ) × List (String × Int)) :
    List (String × ℚ) :=
  t.1.foldl (fun sc p =>
    if (dget t.2 p.1).getD 0 < threshold then sc
    else sc ++ [(p.1, p.2 / (((dget t.2 p.1).getD 0 : Int) : ℚ))]) []

def get_most_liked_genres (ws : List WatchedContent) : List (String × ℚ) :=
  rankedReport (likedScores MIN_THRESHOLD (likedTallies (fun c => c.genres) ws))

def get_most_liked_actors (ws : List WatchedContent) : List (String × ℚ) :=
  rankedReport (likedScores MIN_THRESHOLD (likedTallies (fun c => c.actors) ws))

def get_most_liked_production_companies (ws : List WatchedContent) : List (String × ℚ) :=
  rankedReport
    (likedScores MIN_THRESHOLD (likedTallies (fun c => c.production_companies) ws))

def get_most_liked_directors (ws : List WatchedContent) : List (String × ℚ) :=
  rankedReport
    (likedScores MIN_THRESHOLD_FOR_DIRECTORS (likedTallies (fun c => c.directors) ws))

/-- Loop body of `get_amount_of_movies_and_series_watched`. -/
def amountStep (st : Nat × Int × Nat × Int) (c : WatchedContent) :
    Nat × Int × Nat × Int :=
  if c.content.is_movie then (st.1 + 1, st.2.1 + c.content.runtime, st.2.2.1, st.2.2.2)
  else (st.1, st.2.1, st.2.2.1 + 1, st.2.2.2 + c.content.runtime)

/-- `(movie_counter, movie_minutes, series_counter, series_minutes)`. -/
def get_amount_of_movies_and_series_watched (ws : List WatchedContent) :
    Nat × Int × Nat × Int :=
  ws.foldl amountStep (0, 0, 0, 0)

/-- Platform-usage counters, reported in insertion order (no ranking). -/
def get_platform_usage (ws : List WatchedContent) : List (String × Int) :=
  ws.foldl (fun counter c =>
    dadd (dinit counter c.platform 0) c.platform c.content.runtime) []

/-- The pre-seeded 12-month dictionary of `get_activity_by_month_and_day`. -/
def monthsInit : List (String × Int) :=
  [("January", 0), ("February", 0), ("March", 0), ("April", 0), ("May", 0), ("June", 0),
   ("July", 0), ("August", 0), ("September", 0), ("October", 0), ("November", 0),
   ("December", 0)]

/-- The pre-seeded 7-weekday dictionary of `get_activity_by_month_and_day`. -/
def weekdayInit : List (String × Int) :=
  [("Sunday", 0), ("Monday", 0), ("Tuesday", 0), ("Wednesday", 0), ("Thursday", 0),
   ("Friday", 0), ("Saturday", 0)]

/-- One loop iteration of `get_activity_by_month_and_day`: the month and
weekday buckets must already exist (`KeyError`, i.e. `none`, otherwise);
the per-date bucket is created on demand. -/
def activityStep (st : List (String × Int) × List (String × Int) × List (Date × Int))
    (c : WatchedContent) :
    Option (List (String × Int) × List (String × Int) × List (Date × Int)) :=
  match daddMem st.1 (monthName c.date.month) c.content.runtime with
  | none => none
  | some m =>
    match daddMem st.2.1 (dayName c.date.weekday) c.content.runtime with
    | none => none
    | some w =>
      some (m, w, dadd (dinit st.2.2 c.date 0) c.date c.content.runtime)

/-- The three accumulator dictionaries of `get_activity_by_month_and_day`
after the loop (months, weekdays, per-date totals), printed before the
most-active-date lookup runs. -/
def activityTables (ws : List WatchedContent) :
    Option (List (String × Int) × List (String × Int) × List (Date × Int)) :=
  ws.foldlM activityStep (monthsInit, weekdayInit, [])

/-- `max(days.items(), key=operator.itemgetter(1))`: a linear scan keeping the
current item unless a strictly larger value appears; `none` models the
`ValueError` raised on an empty dictionary. -/
def maxByValue : List (Date × Int) → Option (Date × Int)
  | [] => none
  | p :: l => some (l.foldl (fun best q => if best.2 < q.2 then q else best) p)

/-- `get_activity_by_month_and_day`: the two calendar tables and the
most-active date (`none` models the uncaught exception paths). -/
def get_activity_by_month_and_day (ws : List WatchedContent) :
    Option (List (String × Int) × List (String × Int) × Date) :=
  match activityTables ws with
  | none => none
  | some (m, w, days) =>
    match maxByValue days with
    | none => none
    | some (d, _) => some (m, w, d)

/-- What `amount_watched[g]` holds after adding `n` fresh occurrences of a key
whose dictionary entry was `o`. -/
def tallyAfter (o : Option Int) (n : Nat) : Option Int :=
  match o with
  | some x => some (x + n)
  | none => if 0 < n then some (n : Int) else none

/-- The `ratings` and `amount_watched` dictionaries always hold exactly the
same key set (they are zero-initialised together). -/
def likedSync (st : List (String × ℚ) × List (String × Int)) : Prop :=
  ∀ g, (dget st.1 g).isSome = (dget st.2 g).isSome

/-- What `days[d]` holds after folding events: `o` is the previous entry,
`b` whether any folded event fell on the date, `s` their summed runtime. -/
def tallyAddAfter (o : Option Int) (b : Bool) (s : Int) : Option Int :=
  match o with
  | some x => some (x + s)
  | none => if b then some s else none

/-! ## Catalog client and content-resolution layer

The remote catalog (TMDB) is modelled as an environment of response-valued
functions; each `APIRequests` method checks the status code through
`process_API_response`, whose raised `FailedAPIRequest` is the `Except.error`
case.  Content construction returns its list of catalog calls, so "no further
catalog calls" is a statement about the returned trace. -/

structure Genre where
  name : String
deriving DecidableEq, Repr

structure Company where
  name : String
deriving DecidableEq, Repr

structure CastMember where
  name : String
deriving DecidableEq, Repr

structure CrewMember where
  job : String
  name : String
deriving DecidableEq, Repr

structure Credits where
  cast : List CastMember
  crew : List CrewMember
deriving DecidableEq, Repr

structure MovieResult where
  id : Int
deriving DecidableEq, Repr

structure EpisodeResult where
  id : Int
  show_id : Int
  season_number : Int
  episode_number : Int
deriving DecidableEq, Repr

/-- Parsed body of `/find/{imdb_id}`. -/
structure FindResult where
  movie_results : List MovieResult
  tv_episode_results : List EpisodeResult
deriving DecidableEq, Repr

/-- Parsed body of `/movie/{movie_id}?append_to_response=credits`. -/
structure MovieDetail where
  original_title : String
  genres : List Genre
  credits : Credits
  production_companies : List Company
  release_date : String
  runtime : Int
deriving DecidableEq, Repr

/-- Parsed body of `/tv/{show_id}?append_to_response=credits`. -/
structure ShowDetail where
  original_name : String
  genres : List Genre
  credits : Credits
  production_companies : List Company
  episode_run_time : List Int
deriving DecidableEq, Repr

/-- Parsed body of `/tv/{show_id}/season/{s}/episode/{e}?append_to_response=credits`. -/
structure EpisodeDetail where
  credits : Credits
  air_date : String
deriving DecidableEq, Repr

/-- The fields of a `requests` response the source reads: `status_code`,
`url`, `text` and the parsed `.json()` body. -/
structure Response (α : Type) where
  status_code : Nat
  url : String
  text : String
  json : α
deriving DecidableEq, Repr

/-- The payload of a `FailedAPIRequest` exception: requested URL, expected
status code, actual status code, raw body. -/
structure ApiError where
  url : String
  expected : Nat
  actual : Nat
  body : String
deriving DecidableEq, Repr

/-- `process_API_response`: raises `FailedAPIRequest` (the `error` case) when
the status code is not the expected one. -/
def process_API_response {α : Type} (response : Response α)
    (expected_status_code : Nat) : Except ApiError Unit :=
  if response.status_code ≠ expected_status_code then
    Except.error ⟨response.url, expected_status_code, response.status_code, response.text⟩
  else Except.ok ()

/-- The `APIRequests` object over a fixed catalog state: what each of the
four endpoints would respond. -/
structure APIRequests where
  find : String → Response FindResult
  movie : String → Response MovieDetail
  tv : String → Response ShowDetail
  episode : String → String → String → Response EpisodeDetail

def get_info_from_imdb_id (t : APIRequests) (imdb_id : String) :
    Except ApiError (Response FindResult) :=
  match process_API_response (t.find imdb_id) STATUS_CODE_OK with
  | Except.error e => Except.error e
  | Except.ok _ => Except.ok (t.find imdb_id)

def get_movie_info (t : APIRequests) (movie_id : String) :
    Except ApiError (Response MovieDetail) :=
  match process_API_response (t.movie movie_id) STATUS_CODE_OK with
  | Except.error e => Except.error e
  | Except.ok _ => Except.ok (t.movie movie_id)

def get_show_info (t : APIRequests) (show_id : String) :
    Except ApiError (Response ShowDetail) :=
  match process_API_response (t.tv show_id) STATUS_CODE_OK with
  | Except.error e => Except.error e
  | Except.ok _ => Except.ok (t.tv show_id)

def get_episode_info (t : APIRequests) (show_id season episode : String) :
    Except ApiError (Response EpisodeDetail) :=
  match process_API_response (t.episode show_id season episode) STATUS_CODE_OK with
  | Except.error e => Except.error e
  | Except.ok _ => Except.ok (t.episode show_id season episode)

/-- The uncaught Python exceptions of the run. -/
inductive Err where
  /-- `FailedAPIRequest` -/
  | api (e : ApiError)
  /-- `ValueError` / `TypeError` from parsing dates, numbers or fields -/
  | value
  /-- `ZeroDivisionError` from averaging an empty `episode_run_time` list -/
  | zeroDiv
deriving DecidableEq, Repr

/-- One catalog round trip, for call-trace bookkeeping. -/
inductive Call where
  | find (imdb_id : String)
  | movie (tmdb_id : String)
  | tv (show_id : String)
  | episode (show_id season episode : String)
deriving DecidableEq, Repr

/-- The attribute state of a constructed `Content` object.

In the empty-state branch the source assigns `None` to every metadata
attribute except that, by a typo, it writes `pruction_companies` instead of
`production_companies`: the real `production_companies` attribute is then
never assigned (reading it would raise `AttributeError`).  Here
`production_companies = none` means that attribute is absent/`None`-free,
and `pruction_companies = some ()` records that the misspelled attribute was
assigned (to `None`). -/
structure Content where
  tmdb_id : Option String
  title : Option String
  genres : Option (List String)
  is_movie : Bool
  is_series : Bool
  actors : Option (List String)
  directors : Option (List String)
  production_companies : Option (List String)
  pruction_companies : Option Unit
  release_date : Option Date
  runtime : Option Int
deriving DecidableEq, Repr

/-- The `else` branch of `Content.__init__`: the object in its empty state
(`tmdb_id` was not found). -/
def Content.emptyState (is_movie : Bool) : Content :=
  { tmdb_id := none, title := none, genres := none, is_movie := is_movie,
    is_series := !is_movie, actors := none, directors := none,
    production_companies := none, pruction_companies := some (),
    release_date := none, runtime := none }

/-- `Content._get_genres`: the `name` of each listed genre. -/
def genreNames (genres : List Genre) : List String :=
  genres.map Genre.name

/-- `Content._get_production_companies`: the `name` of each listed company. -/
def companyNames (companies : List Company) : List String :=
  companies.map Company.name

/-- `Content._get_actors`: the first `MAX_CAST` cast entries, in catalog order. -/
def castNames (credits : Credits) : List String :=
  (credits.cast.take MAX_CAST).map CastMember.name

/-- `Movie._get_directors` / `SeriesEpisode._get_directors` body: crew entries
with job `"Director"`, capped to the first `MAX_DIRECTORS`. -/
def directorNames (credits : Credits) : List String :=
  ((credits.crew.filter (fun cm => cm.job = "Director")).map CrewMember.name).take
    MAX_DIRECTORS

/-- Python `int(·)` on the unsigned digit strings the source feeds it
(`none` models `ValueError`). -/
def parseNat (s : String) : Option Nat :=
  match s.toList with
  | [] => none
  | cs =>
    cs.foldl (fun acc c =>
      match acc with
      | none => none
      | some n =>
        if 48 ≤ c.toNat ∧ c.toNat ≤ 57 then some (n * 10 + (c.toNat - 48))
        else none) (some 0)

/-- Python `str.split(sep)` for a one-character separator, on the character
list of the string. -/
def splitChars (sep : Char) : List Char → List Char → List (List Char)
  | [], acc => [acc.reverse]
  | c :: cs, acc =>
    if c = sep then acc.reverse :: splitChars sep cs []
    else splitChars sep cs (c :: acc)

/-- Python `s.split(sep)` for a one-character separator. -/
def splitOnSep (sep : Char) (s : String) : List String :=
  (splitChars sep s.toList []).map String.mk

/-- `datetime(int(year), int(month), int(day))` after `split("-")` on an ISO
`YYYY-MM-DD` string; `none` models the `ValueError` on malformed input. -/
def parseDateYMD (s : String) : Option Date :=
  match splitOnSep ('-') s with
  | [y, m, d] =>
    match parseNat y, parseNat m, parseNat d with
    | some yn, some mn, some dn => datetimeMk yn mn dn
    | _, _, _ => none
  | _ => none

/-- `datetime(int(year), int(month), int(day))` after `split("/")` on the
log's `MM/DD/YYYY` date string. -/
def parseDateMDY (s : String) : Option Date :=
  match splitOnSep ('/') s with
  | [m, d, y] =>
    match parseNat m, parseNat d, parseNat y with
    | some mn, some dn, some yn => datetimeMk yn mn dn
    | _, _, _ => none
  | _ => none

/-- Python `float(·)` on the unsigned decimal rating strings of the log,
exactly (`none` models `ValueError`). -/
def parseRat (s : String) : Option ℚ :=
  match splitOnSep ('.') s with
  | [w] => (parseNat w).map (fun n => (n : ℚ))
  | [w, f] =>
    match parseNat w, parseNat f with
    | some n, some m => some ((n : ℚ) + (m : ℚ) / (10 : ℚ) ^ f.length)
    | _, _ => none
  | _ => none

/-- Python `int(x)` on a float: truncation toward zero. -/
def ratTrunc (q : ℚ) : Int :=
  if 0 ≤ q then ⌊q⌋ else -⌊-q⌋

/-- `SeriesEpisode._get_runtime`:
`int(sum(episode_run_time) / len(episode_run_time))`; `none` models the
unguarded `ZeroDivisionError` on an empty list. -/
def seriesEpisodeRuntime (ert : List Int) : Option Int :=
  if ert.length = 0 then none
  else some (ratTrunc ((ert.sum : ℚ) / (ert.length : ℚ)))

/-- `Movie(requester, imdb_id)`: the constructed `Content` (or the uncaught
exception), together with the catalog calls performed. -/
def Movie_build (t : APIRequests) (imdb_id : String) :
    List Call × Except Err Content :=
  match get_info_from_imdb_id t imdb_id with
  | Except.error e => ([Call.find imdb_id], Except.error (Err.api e))
  | Except.ok resp =>
    match resp.json.movie_results with
    | [] => ([Call.find imdb_id], Except.ok (Content.emptyState true))
    | r :: _ =>
      let tid := toString r.id
      match get_movie_info t tid with
      | Except.error e =>
        ([Call.find imdb_id, Call.movie tid], Except.error (Err.api e))
      | Except.ok mresp =>
        match parseDateYMD mresp.json.release_date with
        | none => ([Call.find imdb_id, Call.movie tid], Except.error Err.value)
        | some rd =>
          ([Call.find imdb_id, Call.movie tid],
           Except.ok
             { tmdb_id := some tid, title := some mresp.json.original_title,
               genres := some (genreNames mresp.json.genres),
               is_movie := true, is_series := false,
               actors := some (castNames mresp.json.credits),
               directors := some (directorNames mresp.json.credits),
               production_companies :=
                 some (companyNames mresp.json.production_companies),
               pruction_companies := none,
               release_date := some rd, runtime := some mresp.json.runtime })

/-- The `show_id` / `season` / `episode` attributes a `SeriesEpisode`
carries besides the shared `Content` state. -/
structure EpisodeIds where
  show_id : Option String
  season : Option String
  episode : Option String
deriving DecidableEq, Repr

/-- `SeriesEpisode(requester, imdb_id)`.  On a match, series detail supplies
title/genres/cast/companies/runtime; directors and the air date each require
a further episode-detail call (the source performs that call twice). -/
def SeriesEpisode_build (t : APIRequests) (imdb_id : String) :
    List Call × Except Err (Content × EpisodeIds) :=
  match get_info_from_imdb_id t imdb_id with
  | Except.error e => ([Call.find imdb_id], Except.error (Err.api e))
  | Except.ok resp =>
    match resp.json.tv_episode_results with
    | [] =>
      ([Call.find imdb_id],
       Except.ok (Content.emptyState false, ⟨none, none, none⟩))
    | r :: _ =>
      let sid := toString r.show_id
      let season := toString r.season_number
      let ep := toString r.episode_number
      let tid := toString r.id
      match get_show_info t sid with
      | Except.error e =>
        ([Call.find imdb_id, Call.tv sid], Except.error (Err.api e))
      | Except.ok sresp =>
        match get_episode_info t sid season ep with
        | Except.error e =>
          ([Call.find imdb_id, Call.tv sid, Call.episode sid season ep],
           Except.error (Err.api e))
        | Except.ok eresp1 =>
          match get_episode_info t sid season ep with
          | Except.error e =>
            ([Call.find imdb_id, Call.tv sid, Call.episode sid season ep,
              Call.episode sid season ep], Except.error (Err.api e))
          | Except.ok eresp2 =>
            match parseDateYMD eresp2.json.air_date with
            | none =>
              ([Call.find imdb_id, Call.tv sid, Call.episode sid season ep,
                Call.episode sid season ep], Except.error Err.value)
            | some rd =>
              match seriesEpisodeRuntime sresp.json.episode_run_time with
              | none =>
                ([Call.find imdb_id, Call.tv sid, Call.episode sid season ep,
                  Call.episode sid season ep], Except.error Err.zeroDiv)
              | some rt =>
                ([Call.find imdb_id, Call.tv sid, Call.episode sid season ep,
                  Call.episode sid season ep],
                 Except.ok
                   ({ tmdb_id := some tid,
                      title := some sresp.json.original_name,
                      genres := some (genreNames sresp.json.genres),
                      is_movie := false, is_series := true,
                      actors := some (castNames sresp.json.credits),
                      directors := some (directorNames eresp1.json.credits),
                      production_companies :=
                        some (companyNames sresp.json.production_companies),
                      pruction_companies := none,
                      release_date := some rd, runtime := some rt },
                    ⟨some sid, some season, some ep⟩))

/-- One line of the tab-delimited watch log, as the `csv.DictReader` mapping. -/
structure RawRecord where
  date : String
  movieOrSeries : String
  name : String
  platform : String
  rating : String
  imdb_id : String
deriving DecidableEq, Repr

/-- The variant dispatch of `main`'s loop:
`Movie(...) if row["Movie or Series"] == "Movie" else SeriesEpisode(...)`. -/
def resolveRecord (t : APIRequests) (r : RawRecord) : Except Err Content :=
  if r.movieOrSeries = "Movie" then (Movie_build t r.imdb_id).2
  else (SeriesEpisode_build t r.imdb_id).2.map Prod.fst

/-- The Watch Event Builder loop of `main`: resolves each record, skips
unresolved ones while printing a diagnostic `(Name, IMDB ID)` pair, parses
date and rating and appends a `WatchedContent`; any uncaught exception
(there is no `try` in the source) aborts the whole run. -/
def buildEvents (t : APIRequests) :
    List RawRecord → Except Err (List (WatchedContentG Content) × List (String × String))
  | [] => Except.ok ([], [])
  | r :: rest =>
    match resolveRecord t r with
    | Except.error e => Except.error e
    | Except.ok c =>
      if c.tmdb_id = none then
        match buildEvents t rest with
        | Except.error e => Except.error e
        | Except.ok (evs, dgs) => Except.ok (evs, (r.name, r.imdb_id) :: dgs)
      else
        match parseDateMDY r.date with
        | none => Except.error Err.value
        | some dt =>
          match parseRat r.rating with
          | none => Except.error Err.value
          | some rq =>
            match buildEvents t rest with
            | Except.error e => Except.error e
            | Except.ok (evs, dgs) =>
              Except.ok (⟨c, r.platform, dt, rq⟩ :: evs, dgs)

/-! ## Concrete sample data for closed instances -/

def dummyMovieDetail : MovieDetail :=
  { original_title := "T", genres := [], credits := ⟨[], []⟩,
    production_companies := [], release_date := "2020-01-02", runtime := 100 }

def dummyShowDetail : ShowDetail :=
  { original_name := "S", genres := [], credits := ⟨[], []⟩,
    production_companies := [], episode_run_time := [40, 45] }

def dummyEpisodeDetail : EpisodeDetail :=
  { credits := ⟨[], []⟩, air_date := "2020-03-04" }

/-- A catalog state whose `/find` endpoint answers 404. -/
def cexEnv : APIRequests :=
  { find := fun _ =>
      { status_code := 404, url := "https://api.themoviedb.org/3/find/tt0000001",
        text := "Not Found",
        json := { movie_results := [], tv_episode_results := [] } },
    movie := fun _ =>
      { status_code := 200, url := "m", text := "", json := dummyMovieDetail },
    tv := fun _ =>
      { status_code := 200, url := "s", text := "", json := dummyShowDetail },
    episode := fun _ _ _ =>
      { status_code := 200, url := "e", text := "", json := dummyEpisodeDetail } }

def cexRecord : RawRecord :=
  ⟨"03/01/2021", "Movie", "Lost Film", "Netflix", "8.0", "tt0000001"⟩

/-- A catalog state that answers 200 with zero matches for every external id. -/
def zeroEnv : APIRequests :=
  { find := fun imdb =>
      { status_code := 200, url := "https://api.themoviedb.org/3/find/" ++ imdb,
        text := "", json := { movie_results := [], tv_episode_results := [] } },
    movie := fun _ =>
      { status_code := 200, url := "m", text := "", json := dummyMovieDetail },
    tv := fun _ =>
      { status_code := 200, url := "s", text := "", json := dummyShowDetail },
    episode := fun _ _ _ =>
      { status_code := 200, url := "e", text := "", json := dummyEpisodeDetail } }

def zeroRecordEpisode : RawRecord :=
  ⟨"03/02/2021", "Series", "Ghost Episode", "Hulu", "7.5", "tt0000003"⟩

def sampleContent : ResolvedContent :=
  { title := "Film", genres := ["Drama", "War"], is_movie := true,
    is_series := false, actors := ["Alice"], directors := ["Dan"],
    production_companies := ["Acme"], release_date := ⟨2020, 5, 17⟩,
    runtime := 120 }

def sampleEvent : WatchedContent :=
  { content := sampleContent, platform := "Netflix", date := ⟨2021, 3, 1⟩,
    rating := 8 }

def sampleEvent2 : WatchedContent :=
  { content :=
      { title := "Short", genres := ["Drama"], is_movie := false,
        is_series := true, actors := ["Bob"], directors := ["Eve"],
        production_companies := ["Acme"], release_date := ⟨2019, 1, 2⟩,
        runtime := 10 },
    platform := "Hulu", date := ⟨2021, 3, 1⟩, rating := 7 }

def starContent : ResolvedContent :=
  { title := "Star Show", genres := ["Star"], is_movie := true,
    is_series := false, actors := ["Star"], directors := ["Star"],
    production_companies := ["Star"], release_date := ⟨2020, 1, 1⟩,
    runtime := 60 }

def starEvent : WatchedContent :=
  { content := starContent, platform := "P", date := ⟨2021, 3, 1⟩, rating := 8 }

def starEvents : List WatchedContent :=
  [starEvent, starEvent, starEvent, starEvent, starEvent]

/-! ## Dictionary lemmas -/

theorem dget_nil {κ β : Type} [DecidableEq κ] (k : κ) :
    dget ([] : List (κ × β)) k = none := rfl

theorem dget_cons {κ β : Type} [DecidableEq κ] (p : κ × β) (l : List (κ × β)) (k : κ) :
    dget (p :: l) k = if p.1 = k then some p.2 else dget l k := rfl

theorem dadd_nil {κ β : Type} [DecidableEq κ] [Add β] (k : κ) (v : β) :
    dadd ([] : List (κ × β)) k v = [] := rfl

theorem dadd_cons {κ β : Type} [DecidableEq κ] [Add β] (p : κ × β) (l : List (κ × β))
    (k : κ) (v : β) :
    dadd (p :: l) k v = (if p.1 = k then (p.1, p.2 + v) else p) :: dadd l k v := rfl

theorem dget_append {κ β : Type} [DecidableEq κ] (l l' : List (κ × β)) (k : κ) :
    dget (l ++ l') k = ((dget l k).rec (dget l' k) (fun v => some v)) := by
  induction l with
  | nil => simp [dget]
  | cons p l ih =>
    by_cases h : p.1 = k <;> simp [dget_cons, h, ih]

theorem dget_dadd {κ β : Type} [DecidableEq κ] [Add β] (l : List (κ × β)) (k k' : κ) (v : β) :
    dget (dadd l k v) k' = (dget l k').map (fun x => if k' = k then x + v else x) := by
  induction l with
  | nil => simp [dget, dadd]
  | cons p l ih =>
    rw [dadd_cons]
    by_cases hk : p.1 = k
    · by_cases hk' : p.1 = k' <;> simp_all [dget_cons, hk, hk']
    · by_cases hk' : p.1 = k'
      · have hne : ¬ (k' = k) := fun h => hk (hk' ▸ h)
        simp [dget_cons, hk, hk', hne]
      · simp [dget_cons, hk, hk', ih]

theorem dadd_keys {κ β : Type} [DecidableEq κ] [Add β] (l : List (κ × β)) (k : κ) (v : β) :
    (dadd l k v).map Prod.fst = l.map Prod.fst := by
  induction l with
  | nil => rfl
  | cons p l ih =>
    rw [dadd_cons]
    by_cases h : p.1 = k <;> simp [h, ih]

theorem dget_isSome_iff {κ β : Type} [DecidableEq κ] (l : List (κ × β)) (k : κ) :
    (dget l k).isSome = true ↔ k ∈ l.map Prod.fst := by
  induction l with
  | nil => simp [dget]
  | cons p l ih =>
    by_cases h : p.1 = k <;> simp [dget_cons, h, ih] <;> tauto

theorem dget_mem {κ β : Type} [DecidableEq κ] {l : List (κ × β)} {k : κ} {v : β}
    (h : dget l k = some v) : (k, v) ∈ l := by
  induction l with
  | nil => simp [dget] at h
  | cons p l ih =>
    by_cases hk : p.1 = k
    · rw [dget_cons, if_pos hk] at h
      have : p = (k, v) := by
        cases p
        simp_all
      exact this ▸ List.mem_cons_self _ _
    · rw [dget_cons, if_neg hk] at h
      exact List.mem_cons_of_mem _ (ih h)

theorem dget_of_mem_nodup {κ β : Type} [DecidableEq κ] {l : List (κ × β)} {k : κ} {v : β}
    (hmem : (k, v) ∈ l) (hnd : (l.map Prod.fst).Nodup) : dget l k = some v := by
  induction l with
  | nil => simp at hmem
  | cons p l ih =>
    rw [List.map_cons, List.nodup_cons] at hnd
    rcases List.mem_cons.mp hmem with h | h
    · simp [dget_cons, ← h]
    · have hk : p.1 ≠ k := by
        intro hpk
        exact hnd.1 (hpk ▸ List.mem_map.mpr ⟨(k, v), h, rfl⟩)
      simp [dget_cons, hk, ih h hnd.2]

theorem dadd_of_not_mem {κ β : Type} [DecidableEq κ] [Add β] {l : List (κ × β)} {k : κ}
    (h : k ∉ l.map Prod.fst) (v : β) : dadd l k v = l := by
  induction l with
  | nil => rfl
  | cons p l ih =>
    have hp : p.1 ≠ k := fun hh => h (by simp [hh])
    have hl : k ∉ l.map Prod.fst := fun hh => h (by simp [hh])
    rw [dadd_cons, if_neg hp, ih hl]

theorem dadd_sum {κ : Type} [DecidableEq κ] {β : Type} [AddCommMonoid β]
    {l : List (κ × β)} {k : κ} (hnd : (l.map Prod.fst).Nodup)
    (hmem : k ∈ l.map Prod.fst) (v : β) :
    ((dadd l k v).map Prod.snd).sum = (l.map Prod.snd).sum + v := by
  induction l with
  | nil => simp at hmem
  | cons p l ih =>
    rw [List.map_cons, List.nodup_cons] at hnd
    rw [List.map_cons, List.mem_cons] at hmem
    by_cases hp : p.1 = k
    · have hnl : k ∉ l.map Prod.fst := hp ▸ hnd.1
      rw [dadd_cons, if_pos hp, dadd_of_not_mem (β := β) hnl v]
      simp [add_right_comm]
    · have hmem' : k ∈ l.map Prod.fst := by
        rcases hmem with h | h
        · exact absurd h.symm hp
        · exact h
      rw [dadd_cons, if_neg hp]
      simp only [List.map_cons, List.sum_cons]
      rw [ih hnd.2 hmem', add_assoc]

/-! ## Resolution-layer lemmas -/

theorem get_info_ok (t : APIRequests) (imdb_id : String)
    (h200 : (t.find imdb_id).status_code = STATUS_CODE_OK) :
    get_info_from_imdb_id t imdb_id = Except.ok (t.find imdb_id) := by
  unfold get_info_from_imdb_id process_API_response
  rw [h200]
  simp

theorem Movie_build_zero_match (t : APIRequests) (imdb_id : String)
    (h200 : (t.find imdb_id).status_code = STATUS_CODE_OK)
    (hempty : (t.find imdb_id).json.movie_results = []) :
    Movie_build t imdb_id
      = ([Call.find imdb_id], Except.ok (Content.emptyState true)) := by
  unfold Movie_build
  rw [get_info_ok t imdb_id h200]
  simp only [hempty]

theorem SeriesEpisode_build_zero_match (t : APIRequests) (imdb_id : String)
    (h200 : (t.find imdb_id).status_code = STATUS_CODE_OK)
    (hempty : (t.find imdb_id).json.tv_episode_results = []) :
    SeriesEpisode_build t imdb_id
      = ([Call.find imdb_id],
         Except.ok (Content.emptyState false, ⟨none, none, none⟩)) := by
  unfold SeriesEpisode_build
  rw [get_info_ok t imdb_id h200]
  simp only [hempty]

theorem buildEvents_skip (t : APIRequests) (r : RawRecord) (rest : List RawRecord)
    (c : Content) (hres : resolveRecord t r = Except.ok c) (hnone : c.tmdb_id = none) :
    buildEvents t (r :: rest)
      = (buildEvents t rest).map (fun out => (out.1, (r.name, r.imdb_id) :: out.2)) := by
  conv_lhs => rw [buildEvents]
  rw [hres]
  show (if c.tmdb_id = none then _ else _) = _
  rw [if_pos hnone]
  cases buildEvents t rest with
  | error e => rfl
  | ok out => cases out; rfl

/-! ## C1: a CatalogRequestFailed during resolution aborts the run -/

/-- C1 counterexample: a record whose content resolution raises
`FailedAPIRequest` (the `/find` call answers 404) does not lead to a skip
with a diagnostic: `buildEvents` propagates the exception and the run aborts
with an error instead of continuing to an `ok` outcome. -/
theorem api_failure_not_skipped_cex :
    resolveRecord cexEnv cexRecord = Except.error (Err.api
      ⟨"https://api.themoviedb.org/3/find/tt0000001", 200, 404, "Not Found"⟩) ∧
    buildEvents cexEnv [cexRecord] = Except.error (Err.api
      ⟨"https://api.themoviedb.org/3/find/tt0000001", 200, 404, "Not Found"⟩) ∧
    ∀ out, buildEvents cexEnv [cexRecord] ≠ Except.ok out := by
  refine ⟨rfl, rfl, fun out h => ?_⟩
  rw [show buildEvents cexEnv [cexRecord] = Except.error (Err.api
      ⟨"https://api.themoviedb.org/3/find/tt0000001", 200, 404, "Not Found"⟩)
    from rfl] at h
  exact Except.noConfusion h

/-- C1 amended: when resolving a record raises `FailedAPIRequest`, the
exception propagates out of the builder loop uncaught (there is no
`try`/`except` in `main`), aborting the whole run with that error — no skip,
no diagnostic; only the zero-match outcome is skipped per record. -/
theorem api_failure_aborts_run (t : APIRequests) (r : RawRecord)
    (rest : List RawRecord) (e : Err) (h : resolveRecord t r = Except.error e) :
    buildEvents t (r :: rest) = Except.error e := by
  unfold buildEvents
  rw [h]

/-- Witness for `api_failure_aborts_run` at the concrete 404 catalog. -/
theorem api_failure_aborts_run_witness :
    resolveRecord cexEnv cexRecord = Except.error (Err.api
      ⟨"https://api.themoviedb.org/3/find/tt0000001", 200, 404, "Not Found"⟩) ∧
    buildEvents cexEnv [cexRecord] = Except.error (Err.api
      ⟨"https://api.themoviedb.org/3/find/tt0000001", 200, 404, "Not Found"⟩) :=
  ⟨rfl, api_failure_aborts_run cexEnv cexRecord [] _ rfl⟩

/-! ## C6: the zero-match not-found policy -/

/-- C6: an external id resolving to zero catalog matches (either variant)
does not raise, performs no catalog call beyond the single `/find`, yields
the absent-id sentinel (`tmdb_id = none`), and at the builder layer such a
record produces no Watch Event and exactly one diagnostic while the run
continues with the remaining records. -/
theorem zero_match_not_found_policy (t : APIRequests) (imdb_id : String)
    (r : RawRecord) (rest : List RawRecord) (c : Content) :
    ((t.find imdb_id).status_code = STATUS_CODE_OK →
      (t.find imdb_id).json.movie_results = [] →
      Movie_build t imdb_id
        = ([Call.find imdb_id], Except.ok (Content.emptyState true))) ∧
    ((t.find imdb_id).status_code = STATUS_CODE_OK →
      (t.find imdb_id).json.tv_episode_results = [] →
      SeriesEpisode_build t imdb_id
        = ([Call.find imdb_id],
           Except.ok (Content.emptyState false, ⟨none, none, none⟩))) ∧
    (Content.emptyState true).tmdb_id = none ∧
    (Content.emptyState false).tmdb_id = none ∧
    (resolveRecord t r = Except.ok c → c.tmdb_id = none →
      buildEvents t (r :: rest)
        = (buildEvents t rest).map (fun out => (out.1, (r.name, r.imdb_id) :: out.2))) :=
  ⟨Movie_build_zero_match t imdb_id, SeriesEpisode_build_zero_match t imdb_id,
   rfl, rfl, buildEvents_skip t r rest c⟩

/-- Witness for `zero_match_not_found_policy` at a concrete zero-match
catalog and a concrete episode record. -/
theorem zero_match_not_found_policy_witness :
    (zeroEnv.find ("tt0000003")).status_code = STATUS_CODE_OK ∧
    (zeroEnv.find ("tt0000003")).json.movie_results = [] ∧
    (zeroEnv.find ("tt0000003")).json.tv_episode_results = [] ∧
    resolveRecord zeroEnv zeroRecordEpisode = Except.ok (Content.emptyState false) ∧
    Movie_build zeroEnv ("tt0000003")
      = ([Call.find ("tt0000003")], Except.ok (Content.emptyState true)) ∧
    SeriesEpisode_build zeroEnv ("tt0000003")
      = ([Call.find ("tt0000003")],
         Except.ok (Content.emptyState false, ⟨none, none, none⟩)) ∧
    buildEvents zeroEnv [zeroRecordEpisode]
      = (buildEvents zeroEnv []).map
          (fun out => (out.1, (("Ghost Episode", "tt0000003")) :: out.2)) :=
  ⟨rfl, rfl, rfl, rfl,
   (zero_match_not_found_policy zeroEnv ("tt0000003") zeroRecordEpisode []
      (Content.emptyState false)).1 rfl rfl,
   (zero_match_not_found_policy zeroEnv ("tt0000003") zeroRecordEpisode []
      (Content.emptyState false)).2.1 rfl rfl,
   (zero_match_not_found_policy zeroEnv ("tt0000003") zeroRecordEpisode []
      (Content.emptyState false)).2.2.2.2 rfl rfl⟩

/-! ## C2: the unresolved empty state leaves every metadata field absent -/

/-- C2: a `Content` constructed from an external id with no catalog entry
(either variant) carries `tmdb_id = none` and every other metadata field
absent: title, genres, actors, directors, release date and runtime are
`None`, and the `production_companies` attribute is never assigned at all
(the empty-state branch writes the misspelled `pruction_companies`
instead). -/
theorem unresolved_content_all_fields_absent (t : APIRequests) (imdb_id : String) :
    ((t.find imdb_id).status_code = STATUS_CODE_OK →
      (t.find imdb_id).json.movie_results = [] →
      ∃ c, Movie_build t imdb_id = ([Call.find imdb_id], Except.ok c) ∧
        c.tmdb_id = none ∧ c.title = none ∧ c.genres = none ∧ c.actors = none ∧
        c.directors = none ∧ c.production_companies = none ∧
        c.pruction_companies = some () ∧ c.release_date = none ∧
        c.runtime = none) ∧
    ((t.find imdb_id).status_code = STATUS_CODE_OK →
      (t.find imdb_id).json.tv_episode_results = [] →
      ∃ c ids, SeriesEpisode_build t imdb_id
          = ([Call.find imdb_id], Except.ok (c, ids)) ∧
        c.tmdb_id = none ∧ c.title = none ∧ c.genres = none ∧ c.actors = none ∧
        c.directors = none ∧ c.production_companies = none ∧
        c.pruction_companies = some () ∧ c.release_date = none ∧
        c.runtime = none ∧ ids.show_id = none ∧ ids.season = none ∧
        ids.episode = none) := by
  constructor
  · intro h200 hempty
    exact ⟨Content.emptyState true, Movie_build_zero_match t imdb_id h200 hempty,
      rfl, rfl, rfl, rfl, rfl, rfl, rfl, rfl, rfl⟩
  · intro h200 hempty
    exact ⟨Content.emptyState false, ⟨none, none, none⟩,
      SeriesEpisode_build_zero_match t imdb_id h200 hempty,
      rfl, rfl, rfl, rfl, rfl, rfl, rfl, rfl, rfl, rfl, rfl, rfl⟩

/-- Witness for `unresolved_content_all_fields_absent` at the zero-match
catalog. -/
theorem unresolved_content_all_fields_absent_witness :
    (zeroEnv.find ("tt0000004")).status_code = STATUS_CODE_OK ∧
    (zeroEnv.find ("tt0000004")).json.movie_results = [] ∧
    (∃ c, Movie_build zeroEnv ("tt0000004")
        = ([Call.find ("tt0000004")], Except.ok c) ∧
      c.tmdb_id = none ∧ c.title = none ∧ c.genres = none ∧ c.actors = none ∧
      c.directors = none ∧ c.production_companies = none ∧
      c.pruction_companies = some () ∧ c.release_date = none ∧
      c.runtime = none) :=
  ⟨rfl, rfl,
   (unresolved_content_all_fields_absent zeroEnv ("tt0000004")).1 rfl rfl⟩

/-! ## C5: the episode runtime is the truncated mean of episode_run_time -/

theorem ratTrunc_intCast_div (s : Int) (n : Nat) (hn : 0 < n) :
    ratTrunc ((s : ℚ) / (n : ℚ)) = Int.tdiv s n := by
  have hnq : (0 : ℚ) < (n : ℚ) := by exact_mod_cast hn
  rcases le_or_lt 0 s with hs | hs
  · have hq : 0 ≤ (s : ℚ) / (n : ℚ) :=
      div_nonneg (by exact_mod_cast hs) (le_of_lt hnq)
    rw [ratTrunc, if_pos hq, Rat.floor_intCast_div_natCast]
    exact (Int.tdiv_eq_ediv hs (by positivity)).symm
  · have hq : (s : ℚ) / (n : ℚ) < 0 :=
      div_neg_of_neg_of_pos (by exact_mod_cast hs) hnq
    rw [ratTrunc, if_neg (not_le.mpr hq)]
    have hneg : -((s : ℚ) / (n : ℚ)) = (((-s : Int) : ℚ)) / (n : ℚ) := by
      push_cast
      ring
    rw [hneg, Rat.floor_intCast_div_natCast]
    have h1 : Int.tdiv (-s) n = (-s) / (n : Int) :=
      Int.tdiv_eq_ediv (by omega) (by positivity)
    rw [← h1, Int.neg_tdiv]
    ring

/-- C5: for a non-empty `episode_run_time` list the episode runtime is the
integer-truncated mean (`int(sum(l)/len(l))`, truncation toward zero); for an
empty list the computation is an unguarded division by zero
(`ZeroDivisionError`), modelled as `none`, not a handled error value. -/
theorem episode_runtime_truncated_mean (ert : List Int) :
    (ert ≠ [] →
      seriesEpisodeRuntime ert = some (Int.tdiv ert.sum (ert.length : Int))) ∧
    (ert = [] → seriesEpisodeRuntime ert = none) := by
  constructor
  · intro hne
    have hlen : ert.length ≠ 0 := fun h => hne (List.eq_nil_of_length_eq_zero h)
    unfold seriesEpisodeRuntime
    rw [if_neg hlen]
    rw [ratTrunc_intCast_div ert.sum ert.length (Nat.pos_of_ne_zero hlen)]
  · intro h
    subst h
    rfl

/-- Witness for `episode_runtime_truncated_mean` on a concrete runtime
list. -/
theorem episode_runtime_truncated_mean_witness :
    ([40, 45, 50] : List Int) ≠ [] ∧
    seriesEpisodeRuntime [40, 45, 50]
      = some (Int.tdiv (List.sum [40, 45, 50]) ((List.length [(40 : Int), 45, 50] : Nat) : Int)) :=
  ⟨by decide, (episode_runtime_truncated_mean [40, 45, 50]).1 (by decide)⟩

/-! ## Generic lemmas about the ranking machinery -/

theorem nlargestKeys_sorted {α β : Type} [LinearOrder β] (n : Nat) (l : List α)
    (keyfun : α → β) :
    (nlargestKeys n l keyfun).Pairwise (fun a b => keyfun b ≤ keyfun a) := by
  have h : (l.mergeSort (descBy keyfun)).Pairwise (fun a b => descBy keyfun a b = true) :=
    List.sorted_mergeSort
      (fun a b c hab hbc => by
        simp only [descBy, decide_eq_true_eq] at hab hbc ⊢
        exact le_trans hbc hab)
      (fun a b => by
        simp only [descBy, Bool.or_eq_true, decide_eq_true_eq]
        exact le_total (keyfun b) (keyfun a))
      l
  have h' : (l.mergeSort (descBy keyfun)).Pairwise (fun a b => keyfun b ≤ keyfun a) :=
    h.imp (fun hab => by simpa [descBy] using hab)
  exact List.Pairwise.sublist (List.take_sublist n _) h'

theorem nlargestKeys_mem {α β : Type} [LinearOrder β] {n : Nat} {l : List α}
    {keyfun : α → β} {a : α} (h : a ∈ nlargestKeys n l keyfun) : a ∈ l :=
  List.mem_mergeSort.mp (List.mem_of_mem_take h)

theorem nlargestKeys_length {α β : Type} [LinearOrder β] (n : Nat) (l : List α)
    (keyfun : α → β) : (nlargestKeys n l keyfun).length ≤ n := by
  simpa [nlargestKeys] using List.length_take_le n _

theorem rankedReport_sorted {β : Type} [LinearOrder β] [Zero β]
    (scores : List (String × β)) :
    (rankedReport scores).Pairwise (fun p q => q.2 ≤ p.2) := by
  unfold rankedReport
  rw [List.pairwise_map]
  exact nlargestKeys_sorted TOP_N (scores.map Prod.fst) _

theorem rankedReport_length {β : Type} [LinearOrder β] [Zero β]
    (scores : List (String × β)) : (rankedReport scores).length ≤ 20 := by
  unfold rankedReport
  rw [List.length_map]
  exact nlargestKeys_length TOP_N _ _

theorem rankedReport_mem {β : Type} [LinearOrder β] [Zero β]
    {scores : List (String × β)} {k : String} {v : β}
    (h : (k, v) ∈ rankedReport scores) :
    k ∈ scores.map Prod.fst ∧ v = (dget scores k).getD 0 := by
  unfold rankedReport at h
  rcases List.mem_map.mp h with ⟨k', hk', heq⟩
  have hk : k' = k := congrArg Prod.fst heq
  subst hk
  have hv : (dget scores k').getD 0 = v := congrArg Prod.snd heq
  exact ⟨nlargestKeys_mem hk', hv.symm⟩

/-! ## C4: soundness of the sum-ranking reports -/

theorem dinit_keys {κ β : Type} [DecidableEq κ] (l : List (κ × β)) (k : κ) (z : β) :
    (dinit l k z).map Prod.fst = l.map Prod.fst ∨
    (dinit l k z).map Prod.fst = l.map Prod.fst ++ [k] := by
  unfold dinit
  by_cases h : (dget l k).isSome <;> simp [h]

theorem sumStep_keys (rt : Int) (scores : List (String × Int)) (g : String) :
    (sumStep rt scores g).map Prod.fst = scores.map Prod.fst ∨
    (sumStep rt scores g).map Prod.fst = scores.map Prod.fst ++ [g] := by
  unfold sumStep
  rw [dadd_keys]
  exact dinit_keys scores g 0

theorem sumStep_fold_keys (rt : Int) (gs : List String) :
    ∀ (scores : List (String × Int)) (k : String),
      k ∈ (gs.foldl (sumStep rt) scores).map Prod.fst →
      k ∈ scores.map Prod.fst ∨ k ∈ gs := by
  induction gs with
  | nil => intro scores k h; exact Or.inl h
  | cons g gs ih =>
    intro scores k h
    rcases ih (sumStep rt scores g) k h with h' | h'
    · rcases sumStep_keys rt scores g with hk | hk <;> rw [hk] at h'
      · exact Or.inl h'
      · rcases List.mem_append.mp h' with h'' | h''
        · exact Or.inl h''
        · exact Or.inr (by simp [List.mem_singleton.mp h''])
    · exact Or.inr (List.mem_cons_of_mem g h')

theorem sumScores_keys (field : ResolvedContent → List String) (ws : List WatchedContent) :
    ∀ k ∈ (sumScores field ws).map Prod.fst, ∃ c ∈ ws, k ∈ field c.content := by
  suffices h : ∀ (scores : List (String × Int)) (k : String),
      k ∈ (ws.foldl (fun scores c => (field c.content).foldl (sumStep c.content.runtime)
        scores) scores).map Prod.fst →
      k ∈ scores.map Prod.fst ∨ ∃ c ∈ ws, k ∈ field c.content by
    intro k hk
    rcases h [] k hk with h' | h'
    · simp at h'
    · exact h'
  induction ws with
  | nil => intro scores k h; exact Or.inl h
  | cons c ws ih =>
    intro scores k h
    rcases ih _ k h with h' | h'
    · rcases sumStep_fold_keys c.content.runtime (field c.content) scores k h' with h'' | h''
      · exact Or.inl h''
      · exact Or.inr ⟨c, List.mem_cons_self c ws, h''⟩
    · rcases h' with ⟨c', hc', hk'⟩
      exact Or.inr ⟨c', List.mem_cons_of_mem c hc', hk'⟩

theorem dadd_mem_val {κ β : Type} [DecidableEq κ] [Add β] {l : List (κ × β)} {k : κ}
    {v : β} {p : κ × β} (h : p ∈ dadd l k v) :
    ∃ q ∈ l, p = q ∨ p = (q.1, q.2 + v) := by
  rcases List.mem_map.mp h with ⟨q, hq, hval⟩
  by_cases hk : q.1 = k
  · exact ⟨q, hq, Or.inr (by rw [← hval]; simp [hk])⟩
  · exact ⟨q, hq, Or.inl (by rw [← hval]; simp [hk])⟩

theorem dinit_mem_val {κ β : Type} [DecidableEq κ] {l : List (κ × β)} {k : κ} {z : β}
    {p : κ × β} (h : p ∈ dinit l k z) : p ∈ l ∨ p = (k, z) := by
  unfold dinit at h
  by_cases hs : (dget l k).isSome
  · rw [if_pos hs] at h; exact Or.inl h
  · rw [if_neg hs] at h
    rcases List.mem_append.mp h with h' | h'
    · exact Or.inl h'
    · exact Or.inr (List.mem_singleton.mp h')

theorem sumStep_nonneg {rt : Int} (hrt : 0 ≤ rt) {scores : List (String × Int)}
    (hsc : ∀ p ∈ scores, 0 ≤ p.2) (g : String) :
    ∀ p ∈ sumStep rt scores g, 0 ≤ p.2 := by
  intro p hp
  rcases dadd_mem_val hp with ⟨q, hq, hcase⟩
  have hq2 : 0 ≤ q.2 := by
    rcases dinit_mem_val hq with h' | h'
    · exact hsc q h'
    · rw [h']
  rcases hcase with h' | h'
  · rw [h']; exact hq2
  · rw [h']; exact add_nonneg hq2 hrt

theorem sumStep_fold_nonneg {rt : Int} (hrt : 0 ≤ rt) (gs : List String) :
    ∀ (scores : List (String × Int)), (∀ p ∈ scores, 0 ≤ p.2) →
      ∀ p ∈ gs.foldl (sumStep rt) scores, 0 ≤ p.2 := by
  induction gs with
  | nil => intro scores hsc; exact hsc
  | cons g gs ih =>
    intro scores hsc
    exact ih (sumStep rt scores g) (sumStep_nonneg hrt hsc g)

theorem sumScores_nonneg (field : ResolvedContent → List String)
    {ws : List WatchedContent} (hrt : ∀ c ∈ ws, 0 ≤ c.content.runtime) :
    ∀ p ∈ sumScores field ws, 0 ≤ p.2 := by
  suffices h : ∀ (scores : List (String × Int)), (∀ p ∈ scores, 0 ≤ p.2) →
      ∀ p ∈ ws.foldl (fun scores c => (field c.content).foldl (sumStep c.content.runtime)
        scores) scores, 0 ≤ p.2 by
    exact h [] (by simp)
  induction ws with
  | nil => intro scores hsc; exact hsc
  | cons c ws ih =>
    intro scores hsc
    have hc : 0 ≤ c.content.runtime := hrt c (List.mem_cons_self c ws)
    have hrt' : ∀ c' ∈ ws, 0 ≤ c'.content.runtime :=
      fun c' hc' => hrt c' (List.mem_cons_of_mem c hc')
    exact ih hrt' _ (sumStep_fold_nonneg hc (field c.content) scores hsc)

theorem sum_ranking_props (field : ResolvedContent → List String)
    (ws : List WatchedContent) (hrt : ∀ c ∈ ws, 0 ≤ c.content.runtime) :
    (∀ k v, (k, v) ∈ rankedReport (sumScores field ws) →
        (∃ c ∈ ws, k ∈ field c.content) ∧ 0 ≤ v) ∧
    (rankedReport (sumScores field ws)).Pairwise (fun p q => q.2 ≤ p.2) ∧
    (rankedReport (sumScores field ws)).length ≤ 20 := by
  refine ⟨?_, rankedReport_sorted _, rankedReport_length _⟩
  intro k v hkv
  rcases rankedReport_mem hkv with ⟨hk, hv⟩
  refine ⟨sumScores_keys field ws k hk, ?_⟩
  rcases (dget_isSome_iff (sumScores field ws) k).mpr hk with hs
  rcases Option.isSome_iff_exists.mp hs with ⟨v', hv'⟩
  have : 0 ≤ v' := sumScores_nonneg field hrt (k, v') (dget_mem hv')
  rw [hv, hv']
  exact this

/-- C4: for every Watch Event collection with non-negative runtimes, each of
the four sum-ranking reports (most-watched genres/actors/directors/production
companies) returns only keys occurring in the relevant field of some event,
with totals that are non-negative, in descending order of total, and at most
20 entries. -/
theorem sum_ranking_reports_sound (ws : List WatchedContent)
    (hrt : ∀ c ∈ ws, 0 ≤ c.content.runtime) :
    ((∀ k v, (k, v) ∈ get_most_watched_genres ws →
        (∃ c ∈ ws, k ∈ c.content.genres) ∧ 0 ≤ v) ∧
      (get_most_watched_genres ws).Pairwise (fun p q => q.2 ≤ p.2) ∧
      (get_most_watched_genres ws).length ≤ 20) ∧
    ((∀ k v, (k, v) ∈ get_most_watched_actors ws →
        (∃ c ∈ ws, k ∈ c.content.actors) ∧ 0 ≤ v) ∧
      (get_most_watched_actors ws).Pairwise (fun p q => q.2 ≤ p.2) ∧
      (get_most_watched_actors ws).length ≤ 20) ∧
    ((∀ k v, (k, v) ∈ get_most_watched_directors ws →
        (∃ c ∈ ws, k ∈ c.content.directors) ∧ 0 ≤ v) ∧
      (get_most_watched_directors ws).Pairwise (fun p q => q.2 ≤ p.2) ∧
      (get_most_watched_directors ws).length ≤ 20) ∧
    ((∀ k v, (k, v) ∈ get_most_watched_production_companies ws →
        (∃ c ∈ ws, k ∈ c.content.production_companies) ∧ 0 ≤ v) ∧
      (get_most_watched_production_companies ws).Pairwise (fun p q => q.2 ≤ p.2) ∧
      (get_most_watched_production_companies ws).length ≤ 20) :=
  ⟨sum_ranking_props (fun c => c.genres) ws hrt,
   sum_ranking_props (fun c => c.actors) ws hrt,
   sum_ranking_props (fun c => c.directors) ws hrt,
   sum_ranking_props (fun c => c.production_companies) ws hrt⟩

/-! ## C3: minimum-sample suppression in the average-ranking reports -/

theorem dget_append_single {κ β : Type} [DecidableEq κ] (l : List (κ × β)) (k : κ)
    (z : β) (g : κ) :
    dget (l ++ [(k, z)]) g
      = match dget l g with
        | some v => some v
        | none => if k = g then some z else none := by
  rw [dget_append]
  cases dget l g <;> simp [dget_cons, dget_nil]

theorem tallyAfter_tallyAfter (o : Option Int) (n m : Nat) :
    tallyAfter (tallyAfter o n) m = tallyAfter o (n + m) := by
  cases o with
  | some x => simp [tallyAfter] <;> omega
  | none =>
    rcases Nat.eq_zero_or_pos n with hn | hn
    · subst hn; simp [tallyAfter]
    · have hnm : 0 < n + m := by omega
      simp [tallyAfter, hn, hnm] <;> omega

theorem likedStep_of_isSome (r : ℚ) (st : List (String × ℚ) × List (String × Int))
    (g : String) (hp : (dget st.1 g).isSome = true) :
    likedStep r st g = (dadd st.1 g r, dadd st.2 g 1) := by
  unfold likedStep
  rw [if_pos hp]

theorem likedStep_of_not_isSome (r : ℚ) (st : List (String × ℚ) × List (String × Int))
    (g : String) (hp : ¬ (dget st.1 g).isSome = true) :
    likedStep r st g = (dadd (st.1 ++ [(g, 0)]) g r, dadd (st.2 ++ [(g, 0)]) g 1) := by
  unfold likedStep
  rw [if_neg hp]

theorem likedStep_sync (r : ℚ) (st : List (String × ℚ) × List (String × Int))
    (g : String) (hsync : likedSync st) : likedSync (likedStep r st g) := by
  intro g'
  by_cases hp : (dget st.1 g).isSome
  · rw [likedStep_of_isSome r st g hp]
    show (dget (dadd st.1 g r) g').isSome = (dget (dadd st.2 g 1) g').isSome
    rw [dget_dadd, dget_dadd]
    simp only [Option.isSome_map']
    exact hsync g'
  · rw [likedStep_of_not_isSome r st g hp]
    show (dget (dadd (st.1 ++ [(g, 0)]) g r) g').isSome
        = (dget (dadd (st.2 ++ [(g, 0)]) g 1) g').isSome
    rw [dget_dadd, dget_dadd]
    simp only [Option.isSome_map']
    rw [dget_append_single, dget_append_single]
    have h := hsync g'
    by_cases hgg : g = g' <;>
      cases h1 : dget st.1 g' <;> cases h2 : dget st.2 g' <;>
        rw [h1, h2] at h <;> simp_all

theorem likedStep_dget_amount (r : ℚ) (st : List (String × ℚ) × List (String × Int))
    (g g' : String) (hsync : likedSync st) :
    dget (likedStep r st g).2 g'
      = if g' = g then some ((dget st.2 g).getD 0 + 1) else dget st.2 g' := by
  by_cases hp : (dget st.1 g).isSome
  · rw [likedStep_of_isSome r st g hp]
    show dget (dadd st.2 g 1) g' = _
    rw [dget_dadd]
    have h2 : (dget st.2 g).isSome := by rw [← hsync g]; exact hp
    rcases Option.isSome_iff_exists.mp h2 with ⟨x, hx⟩
    by_cases hg : g' = g
    · subst hg; rw [hx]; simp [hx]
    · simp only [hg, if_false]
      cases hv : dget st.2 g' <;> simp [hg]
  · rw [likedStep_of_not_isSome r st g hp]
    show dget (dadd (st.2 ++ [(g, 0)]) g 1) g' = _
    have h2 : dget st.2 g = none := by
      have h := hsync g
      rw [Option.not_isSome_iff_eq_none.mp hp] at h
      exact Option.not_isSome_iff_eq_none.mp (by simp [← h])
    rw [dget_dadd, dget_append_single]
    by_cases hg : g' = g
    · subst hg; rw [h2]; simp [h2]
    · have hgg : ¬ (g = g') := fun h => hg h.symm
      cases hv : dget st.2 g' <;> simp [hg, hgg, hv]

theorem likedStep_fold (r : ℚ) (gs : List String) :
    ∀ st, likedSync st →
      likedSync (gs.foldl (likedStep r) st) ∧
      ∀ g, dget (gs.foldl (likedStep r) st).2 g
            = tallyAfter (dget st.2 g) (gs.count g) := by
  induction gs with
  | nil =>
    intro st h
    refine ⟨h, fun g => ?_⟩
    cases hd : dget st.2 g <;> simp [tallyAfter, hd]
  | cons g₀ gs ih =>
    intro st h
    have hstep := likedStep_sync r st g₀ h
    rcases ih (likedStep r st g₀) hstep with ⟨hs, hamt⟩
    refine ⟨hs, fun g => ?_⟩
    rw [List.foldl_cons, hamt g, likedStep_dget_amount r st g₀ g h]
    by_cases hg : g = g₀
    · subst hg
      rw [if_pos rfl, List.count_cons_self]
      cases hd : dget st.2 g <;> simp [tallyAfter, hd] <;> push_cast <;> ring
    · have hcount : (g₀ :: gs).count g = gs.count g := by
        rw [List.count_cons]
        have hb : (g₀ == g) = false := by
          simp only [beq_eq_false_iff_ne, ne_eq]
          exact fun hh => hg hh.symm
        rw [hb]
        simp
      rw [if_neg hg, hcount]

theorem likedTallies_fold (field : ResolvedContent → List String)
    (ws : List WatchedContent) :
    ∀ st, likedSync st →
      likedSync (ws.foldl (fun st c => (field c.content).foldl (likedStep c.rating) st) st) ∧
      ∀ g, dget (ws.foldl (fun st c =>
            (field c.content).foldl (likedStep c.rating) st) st).2 g
          = tallyAfter (dget st.2 g) ((ws.flatMap fun c => field c.content).count g) := by
  induction ws with
  | nil =>
    intro st h
    refine ⟨h, fun g => ?_⟩
    cases hd : dget st.2 g <;> simp [tallyAfter, hd]
  | cons c ws ih =>
    intro st h
    rcases likedStep_fold c.rating (field c.content) st h with ⟨hs1, ha1⟩
    rcases ih _ hs1 with ⟨hs2, ha2⟩
    refine ⟨hs2, fun g => ?_⟩
    rw [List.foldl_cons, ha2 g, ha1 g, tallyAfter_tallyAfter]
    congr 1
    rw [List.flatMap_cons, List.count_append]

theorem likedTallies_count (field : ResolvedContent → List String)
    (ws : List WatchedContent) (g : String) :
    dget (likedTallies field ws).2 g
      = tallyAfter none ((ws.flatMap fun c => field c.content).count g) := by
  have h := likedTallies_fold field ws ([], []) (fun g' => rfl)
  exact h.2 g

theorem likedTallies_sync (field : ResolvedContent → List String)
    (ws : List WatchedContent) : likedSync (likedTallies field ws) :=
  (likedTallies_fold field ws ([], []) (fun _ => rfl)).1

theorem likedScores_mem {θ : Int} {t : List (String × ℚ) × List (String × Int)}
    {k : String} {v : ℚ} (h : (k, v) ∈ likedScores θ t) :
    θ ≤ (dget t.2 k).getD 0 := by
  unfold likedScores at h
  suffices H : ∀ (l : List (String × ℚ)) (acc : List (String × ℚ)),
      (k, v) ∈ l.foldl (fun sc p => if (dget t.2 p.1).getD 0 < θ then sc
        else sc ++ [(p.1, p.2 / (((dget t.2 p.1).getD 0 : Int) : ℚ))]) acc →
      (k, v) ∈ acc ∨ θ ≤ (dget t.2 k).getD 0 by
    rcases H t.1 [] h with h' | h'
    · simp at h'
    · exact h'
  intro l
  induction l with
  | nil => intro acc h'; exact Or.inl h'
  | cons p l ih =>
    intro acc h'
    rw [List.foldl_cons] at h'
    by_cases hc : (dget t.2 p.1).getD 0 < θ
    · rw [if_pos hc] at h'
      exact ih acc h'
    · rw [if_neg hc] at h'
      rcases ih _ h' with h'' | h''
      · rcases List.mem_append.mp h'' with h3 | h3
        · exact Or.inl h3
        · have h4 := List.mem_singleton.mp h3
          have hk : p.1 = k := (congrArg Prod.fst h4).symm
          exact Or.inr (hk ▸ not_lt.mp hc)
      · exact Or.inr h''

theorem rankedReport_keys_subset {β : Type} [LinearOrder β] [Zero β]
    {scores : List (String × β)} {k : String}
    (h : k ∈ (rankedReport scores).map Prod.fst) : k ∈ scores.map Prod.fst := by
  unfold rankedReport at h
  rw [List.map_map] at h
  exact nlargestKeys_mem (by simpa using h)

theorem liked_report_threshold (field : ResolvedContent → List String) (θ : Int)
    (ws : List WatchedContent) (k : String)
    (h : k ∈ (rankedReport (likedScores θ (likedTallies field ws))).map Prod.fst) :
    θ ≤ ((ws.flatMap fun c => field c.content).count k : Int) := by
  have hk := rankedReport_keys_subset h
  have hs := (dget_isSome_iff _ k).mpr hk
  rcases Option.isSome_iff_exists.mp hs with ⟨v', hv'⟩
  have hθ := likedScores_mem (θ := θ) (dget_mem hv')
  have hcnt := likedTallies_count field ws k
  set n := (ws.flatMap fun c => field c.content).count k with hn
  rcases Nat.eq_zero_or_pos n with h0 | h0
  · rw [h0] at hcnt
    simp [tallyAfter] at hcnt
    rw [hcnt] at hθ
    simp at hθ
    rw [h0]
    exact_mod_cast hθ
  · rw [show tallyAfter none n = some (n : Int) by simp [tallyAfter, h0]] at hcnt
    rw [hcnt] at hθ
    simpa using hθ

/-- C3: for every Watch Event collection, no key whose observed occurrence
count is below its minimum-sample threshold (5 for genres, actors and
production companies; 2 for directors) appears in the corresponding
average-ranking report, no matter how high its average rating is. -/
theorem average_ranking_suppression (ws : List WatchedContent) (k : String) :
    (k ∈ (get_most_liked_genres ws).map Prod.fst →
      5 ≤ (ws.flatMap fun c => c.content.genres).count k) ∧
    (k ∈ (get_most_liked_actors ws).map Prod.fst →
      5 ≤ (ws.flatMap fun c => c.content.actors).count k) ∧
    (k ∈ (get_most_liked_production_companies ws).map Prod.fst →
      5 ≤ (ws.flatMap fun c => c.content.production_companies).count k) ∧
    (k ∈ (get_most_liked_directors ws).map Prod.fst →
      2 ≤ (ws.flatMap fun c => c.content.directors).count k) := by
  refine ⟨fun h => ?_, fun h => ?_, fun h => ?_, fun h => ?_⟩
  · have h5 := liked_report_threshold (fun c => c.genres) MIN_THRESHOLD ws k h
    rw [show MIN_THRESHOLD = (5 : Int) from rfl] at h5
    exact_mod_cast h5
  · have h5 := liked_report_threshold (fun c => c.actors) MIN_THRESHOLD ws k h
    rw [show MIN_THRESHOLD = (5 : Int) from rfl] at h5
    exact_mod_cast h5
  · have h5 := liked_report_threshold (fun c => c.production_companies)
      MIN_THRESHOLD ws k h
    rw [show MIN_THRESHOLD = (5 : Int) from rfl] at h5
    exact_mod_cast h5
  · have h2 := liked_report_threshold (fun c => c.directors)
      MIN_THRESHOLD_FOR_DIRECTORS ws k h
    rw [show MIN_THRESHOLD_FOR_DIRECTORS = (2 : Int) from rfl] at h2
    exact_mod_cast h2

/-! ## C8: movie/series split partitions the collection -/

theorem amountStep_fold (ws : List WatchedContent) :
    ∀ st : Nat × Int × Nat × Int,
      (ws.foldl amountStep st).1 + (ws.foldl amountStep st).2.2.1
          = st.1 + st.2.2.1 + ws.length ∧
      (ws.foldl amountStep st).2.1 + (ws.foldl amountStep st).2.2.2
          = st.2.1 + st.2.2.2 + (ws.map (fun c => c.content.runtime)).sum := by
  induction ws with
  | nil => simp
  | cons c ws ih =>
    intro st
    rcases st with ⟨a, b, d, e⟩
    rw [List.foldl_cons]
    rcases ih (amountStep (a, b, d, e) c) with ⟨h1, h2⟩
    cases hm : c.content.is_movie <;>
      simp [amountStep, hm] at h1 h2 ⊢ <;>
      exact ⟨by omega, by omega⟩

/-- C8: for every Watch Event collection, the movie count plus the
series-episode count equals the collection's size, and the movie minutes plus
the series minutes equal the collection's total runtime: each event falls in
exactly one of the two buckets of
`get_amount_of_movies_and_series_watched`. -/
theorem movies_series_partition (ws : List WatchedContent) :
    (get_amount_of_movies_and_series_watched ws).1
        + (get_amount_of_movies_and_series_watched ws).2.2.1 = ws.length ∧
    (get_amount_of_movies_and_series_watched ws).2.1
        + (get_amount_of_movies_and_series_watched ws).2.2.2
        = (ws.map (fun c => c.content.runtime)).sum := by
  have h := amountStep_fold ws (0, 0, 0, 0)
  simpa [get_amount_of_movies_and_series_watched] using h

/-! ## C7: the calendar activity report's buckets -/

theorem monthsInit_keys_nodup : (monthsInit.map Prod.fst).Nodup := by decide

theorem weekdayInit_keys_nodup : (weekdayInit.map Prod.fst).Nodup := by decide

theorem monthName_mem (m : Nat) (h1 : 1 ≤ m) (h2 : m ≤ 12) :
    monthName m ∈ monthsInit.map Prod.fst := by
  interval_cases m <;> decide

theorem weekday_lt (dt : Date) : dt.weekday < 7 :=
  Nat.mod_lt _ (by norm_num)

theorem dayName_mem (n : Nat) (h : n < 7) : dayName n ∈ weekdayInit.map Prod.fst := by
  interval_cases n <;> decide

theorem daddMem_of_mem {κ β : Type} [DecidableEq κ] [Add β] {l : List (κ × β)} {k : κ}
    (h : k ∈ l.map Prod.fst) (v : β) : daddMem l k v = some (dadd l k v) := by
  unfold daddMem
  rw [if_pos ((dget_isSome_iff l k).mpr h)]

theorem activityStep_eq (st : List (String × Int) × List (String × Int) × List (Date × Int))
    (c : WatchedContent) (h1 : monthName c.date.month ∈ st.1.map Prod.fst)
    (h2 : dayName c.date.weekday ∈ st.2.1.map Prod.fst) :
    activityStep st c = some (dadd st.1 (monthName c.date.month) c.content.runtime,
      dadd st.2.1 (dayName c.date.weekday) c.content.runtime,
      dadd (dinit st.2.2 c.date 0) c.date c.content.runtime) := by
  unfold activityStep
  rw [daddMem_of_mem h1 c.content.runtime, daddMem_of_mem h2 c.content.runtime]

/-- Main loop invariant of `get_activity_by_month_and_day`: the 12-month and
7-weekday key sets are preserved, their totals accumulate the runtimes, and
the per-date dictionary evolves by the per-date update. -/
theorem activity_fold (ws : List WatchedContent)
    (hm : ∀ c ∈ ws, 1 ≤ c.date.month ∧ c.date.month ≤ 12) :
    ∀ st : List (String × Int) × List (String × Int) × List (Date × Int),
      st.1.map Prod.fst = monthsInit.map Prod.fst →
      st.2.1.map Prod.fst = weekdayInit.map Prod.fst →
      ∃ res, ws.foldlM activityStep st = some res ∧
        res.1.map Prod.fst = monthsInit.map Prod.fst ∧
        res.2.1.map Prod.fst = weekdayInit.map Prod.fst ∧
        (res.1.map Prod.snd).sum
          = (st.1.map Prod.snd).sum + (ws.map fun c => c.content.runtime).sum ∧
        (res.2.1.map Prod.snd).sum
          = (st.2.1.map Prod.snd).sum + (ws.map fun c => c.content.runtime).sum ∧
        res.2.2 = ws.foldl
          (fun acc c => dadd (dinit acc c.date 0) c.date c.content.runtime) st.2.2 := by
  induction ws with
  | nil =>
    intro st hk1 hk2
    exact ⟨st, rfl, hk1, hk2, by simp, by simp, rfl⟩
  | cons c ws ih =>
    intro st hk1 hk2
    have hmc := hm c (List.mem_cons_self c ws)
    have hm' : ∀ c' ∈ ws, 1 ≤ c'.date.month ∧ c'.date.month ≤ 12 :=
      fun c' hc' => hm c' (List.mem_cons_of_mem c hc')
    have h1 : monthName c.date.month ∈ st.1.map Prod.fst := by
      rw [hk1]; exact monthName_mem c.date.month hmc.1 hmc.2
    have h2 : dayName c.date.weekday ∈ st.2.1.map Prod.fst := by
      rw [hk2]; exact dayName_mem c.date.weekday (weekday_lt c.date)
    set st' := (dadd st.1 (monthName c.date.month) c.content.runtime,
      dadd st.2.1 (dayName c.date.weekday) c.content.runtime,
      dadd (dinit st.2.2 c.date 0) c.date c.content.runtime) with hst'
    have hk1' : st'.1.map Prod.fst = monthsInit.map Prod.fst := by
      rw [hst', dadd_keys]; exact hk1
    have hk2' : st'.2.1.map Prod.fst = weekdayInit.map Prod.fst := by
      rw [hst', dadd_keys]; exact hk2
    rcases ih hm' st' hk1' hk2' with ⟨res, hres, hr1, hr2, hr3, hr4, hr5⟩
    refine ⟨res, ?_, hr1, hr2, ?_, ?_, ?_⟩
    · rw [List.foldlM_cons, activityStep_eq st c h1 h2]
      exact hres
    · rw [hr3, hst']
      have hnd : (st.1.map Prod.fst).Nodup := by rw [hk1]; exact monthsInit_keys_nodup
      rw [dadd_sum hnd h1 c.content.runtime]
      simp
      ring
    · rw [hr4, hst']
      have hnd : (st.2.1.map Prod.fst).Nodup := by rw [hk2]; exact weekdayInit_keys_nodup
      rw [dadd_sum hnd h2 c.content.runtime]
      simp
      ring
    · rw [hr5, hst', List.foldl_cons]

/-- C7: for every Watch Event collection (with the months of all watch dates
in the `datetime`-guaranteed range 1..12), the calendar activity report's
accumulators hold exactly the 12 month buckets and exactly the 7 weekday
buckets (all present even at zero), and the month totals and weekday totals
each sum to the collection's total runtime, each event contributing exactly
once per bucket type. -/
theorem calendar_activity_buckets (ws : List WatchedContent)
    (hm : ∀ c ∈ ws, 1 ≤ c.date.month ∧ c.date.month ≤ 12) :
    ∃ m w days, activityTables ws = some (m, w, days) ∧
      m.map Prod.fst = monthsInit.map Prod.fst ∧
      w.map Prod.fst = weekdayInit.map Prod.fst ∧
      m.length = 12 ∧ w.length = 7 ∧
      (m.map Prod.snd).sum = (ws.map fun c => c.content.runtime).sum ∧
      (w.map Prod.snd).sum = (ws.map fun c => c.content.runtime).sum := by
  rcases activity_fold ws hm (monthsInit, weekdayInit, []) rfl rfl with
    ⟨res, hres, hr1, hr2, hr3, hr4, _⟩
  refine ⟨res.1, res.2.1, res.2.2, by unfold activityTables; rw [hres], hr1, hr2, ?_, ?_, ?_, ?_⟩
  · have := congrArg List.length hr1
    simpa using this
  · have := congrArg List.length hr2
    simpa using this
  · rw [hr3]; simp [monthsInit]
  · rw [hr4]; simp [weekdayInit]

/-! ## C9: per-date sums and the most-active date -/

theorem dayStep_dget (acc : List (Date × Int)) (dc d : Date) (rt : Int) :
    dget (dadd (dinit acc dc 0) dc rt) d
      = if dc = d then some ((dget acc d).getD 0 + rt) else dget acc d := by
  rw [dget_dadd]
  unfold dinit
  by_cases hp : (dget acc dc).isSome
  · rw [if_pos hp]
    by_cases hd : dc = d
    · subst hd
      rcases Option.isSome_iff_exists.mp hp with ⟨x, hx⟩
      rw [hx]
      simp [hx]
    · have hdd : ¬ (d = dc) := fun h => hd h.symm
      cases hv : dget acc d <;> simp [hd, hdd]
  · rw [if_neg hp]
    rw [dget_append_single]
    by_cases hd : dc = d
    · subst hd
      rw [Option.not_isSome_iff_eq_none.mp hp]
      simp [Option.not_isSome_iff_eq_none.mp hp]
    · have hdd : ¬ (d = dc) := fun h => hd h.symm
      cases hv : dget acc d <;> simp [hd, hdd, hv]

theorem daysMap_fold_dget (ws : List WatchedContent) (d : Date) :
    ∀ acc : List (Date × Int),
      dget (ws.foldl (fun acc c => dadd (dinit acc c.date 0) c.date c.content.runtime) acc) d
        = tallyAddAfter (dget acc d) (ws.any fun c => c.date = d)
            (((ws.filter fun c => c.date = d).map fun c => c.content.runtime).sum) := by
  induction ws with
  | nil =>
    intro acc
    cases hv : dget acc d <;> simp [tallyAddAfter, hv]
  | cons c ws ih =>
    intro acc
    rw [List.foldl_cons, ih]
    by_cases hd : c.date = d
    · rw [dayStep_dget, if_pos hd]
      have hany : (List.any (c :: ws) fun c => decide (c.date = d)) = true := by
        simp [hd]
      have hfil : List.filter (fun c => decide (c.date = d)) (c :: ws)
          = c :: List.filter (fun c => decide (c.date = d)) ws := by
        simp [List.filter_cons, hd]
      rw [hany, hfil]
      cases hv : dget acc d <;>
        simp [tallyAddAfter, hv] <;> ring
    · rw [dayStep_dget, if_neg hd]
      have hany : (List.any (c :: ws) fun c => decide (c.date = d))
          = (List.any ws fun c => decide (c.date = d)) := by
        simp [hd]
      have hfil : List.filter (fun c => decide (c.date = d)) (c :: ws)
          = List.filter (fun c => decide (c.date = d)) ws := by
        simp [List.filter_cons, hd]
      rw [hany, hfil]

theorem dinit_nodup {κ β : Type} [DecidableEq κ] {l : List (κ × β)}
    (hnd : (l.map Prod.fst).Nodup) (k : κ) (z : β) :
    ((dinit l k z).map Prod.fst).Nodup := by
  unfold dinit
  by_cases hp : (dget l k).isSome
  · rw [if_pos hp]; exact hnd
  · rw [if_neg hp]
    have hk : k ∉ l.map Prod.fst := by
      intro h
      exact hp ((dget_isSome_iff l k).mpr h)
    simp [List.nodup_append, hnd, hk]

theorem daysMap_fold_nodup (ws : List WatchedContent) :
    ∀ acc : List (Date × Int), (acc.map Prod.fst).Nodup →
      (((ws.foldl (fun acc c => dadd (dinit acc c.date 0) c.date c.content.runtime)
        acc)).map Prod.fst).Nodup := by
  induction ws with
  | nil => intro acc h; exact h
  | cons c ws ih =>
    intro acc h
    rw [List.foldl_cons]
    exact ih _ (by rw [dadd_keys]; exact dinit_nodup h c.date 0)

theorem maxScan_keep {d : Date} {v : Int} (l : List (Date × Int))
    (hall : ∀ q ∈ l, q.2 < v) :
    l.foldl (fun best q => if best.2 < q.2 then q else best) (d, v) = (d, v) := by
  induction l with
  | nil => rfl
  | cons q l ih =>
    rw [List.foldl_cons]
    have hq : q.2 < v := hall q (List.mem_cons_self q l)
    rw [if_neg (by simp; omega)]
    exact ih (fun q' hq' => hall q' (List.mem_cons_of_mem q hq'))

theorem maxScan_reach {d : Date} {v : Int} (l : List (Date × Int)) :
    ∀ b : Date × Int, b.2 < v → (d, v) ∈ l → (∀ q ∈ l, q.1 ≠ d → q.2 < v) →
      ((l.map Prod.fst).Nodup) →
      l.foldl (fun best q => if best.2 < q.2 then q else best) b = (d, v) := by
  induction l with
  | nil => intro b _ hmem _ _; simp at hmem
  | cons q l ih =>
    intro b hb hmem hdom hnd
    rw [List.map_cons, List.nodup_cons] at hnd
    rw [List.foldl_cons]
    by_cases hq : q.1 = d
    · have hqd : q = (d, v) := by
        rcases List.mem_cons.mp hmem with h | h
        · exact h.symm
        · exact absurd (hq ▸ List.mem_map.mpr ⟨(d, v), h, rfl⟩) hnd.1
      rw [hqd, if_pos (by simpa using hb)]
      exact maxScan_keep l (fun q' hq' => by
        have hq'd : q'.1 ≠ d := by
          intro hh
          exact hnd.1 (hqd ▸ hh ▸ List.mem_map.mpr ⟨q', hq', rfl⟩)
        exact hdom q' (List.mem_cons_of_mem q hq') hq'd)
    · have hqv : q.2 < v := hdom q (List.mem_cons_self q l) hq
      have hmem' : (d, v) ∈ l := by
        rcases List.mem_cons.mp hmem with h | h
        · exact absurd (congrArg Prod.fst h.symm) hq
        · exact h
      have hdom' : ∀ q' ∈ l, q'.1 ≠ d → q'.2 < v :=
        fun q' hq' => hdom q' (List.mem_cons_of_mem q hq')
      by_cases hbq : b.2 < q.2
      · rw [if_pos hbq]
        exact ih q hqv hmem' hdom' hnd.2
      · rw [if_neg hbq]
        exact ih b hb hmem' hdom' hnd.2

theorem maxByValue_dominant {l : List (Date × Int)} {d : Date} {v : Int}
    (hnd : (l.map Prod.fst).Nodup) (hmem : (d, v) ∈ l)
    (hdom : ∀ q ∈ l, q.1 ≠ d → q.2 < v) : maxByValue l = some (d, v) := by
  cases l with
  | nil => simp at hmem
  | cons p l =>
    rw [List.map_cons, List.nodup_cons] at hnd
    show some (List.foldl (fun best q => if best.2 < q.2 then q else best) p l)
        = some (d, v)
    congr 1
    by_cases hp : p.1 = d
    · have hpd : p = (d, v) := by
        rcases List.mem_cons.mp hmem with h | h
        · exact h.symm
        · exact absurd (hp ▸ List.mem_map.mpr ⟨(d, v), h, rfl⟩) hnd.1
      rw [hpd]
      exact maxScan_keep l (fun q hq => by
        have hqd : q.1 ≠ d := by
          intro hh
          exact hnd.1 (hpd ▸ hh ▸ List.mem_map.mpr ⟨q, hq, rfl⟩)
        exact hdom q (List.mem_cons_of_mem p hq) hqd)
    · have hpv : p.2 < v := hdom p (List.mem_cons_self p l) hp
      have hmem' : (d, v) ∈ l := by
        rcases List.mem_cons.mp hmem with h | h
        · exact absurd (congrArg Prod.fst h.symm) hp
        · exact h
      exact maxScan_reach l p hpv hmem'
        (fun q hq => hdom q (List.mem_cons_of_mem p hq)) hnd.2

/-- C9: for every Watch Event collection, events watched on the exact same
date have their runtimes summed under that single date key of the per-date
activity dictionary, and a date whose summed total strictly exceeds every
other date's total is the one `get_activity_by_month_and_day` returns as the
most-active date. -/
theorem same_date_sum_and_most_active (ws : List WatchedContent) (d : Date)
    (hm : ∀ c ∈ ws, 1 ≤ c.date.month ∧ c.date.month ≤ 12) :
    (∀ m w days, activityTables ws = some (m, w, days) →
      dget days d = (if ws.any (fun c => c.date = d)
        then some (((ws.filter fun c => c.date = d).map fun c => c.content.runtime).sum)
        else none)) ∧
    ((ws.any fun c => c.date = d) = true →
      (∀ d', d' ≠ d → (ws.any fun c => c.date = d') = true →
        ((ws.filter fun c => c.date = d').map fun c => c.content.runtime).sum
          < ((ws.filter fun c => c.date = d).map fun c => c.content.runtime).sum) →
      ∃ m w, get_activity_by_month_and_day ws = some (m, w, d)) := by
  rcases activity_fold ws hm (monthsInit, weekdayInit, []) rfl rfl with
    ⟨res, hres, _, _, _, _, hdays⟩
  have htab : activityTables ws = some res := by
    unfold activityTables
    rw [hres]
  have hdget : ∀ dq : Date, dget res.2.2 dq = tallyAddAfter none (ws.any fun c => c.date = dq)
      (((ws.filter fun c => c.date = dq).map fun c => c.content.runtime).sum) := by
    intro dq
    rw [hdays]
    exact daysMap_fold_dget ws dq []
  constructor
  · intro m w days h
    rw [htab] at h
    injection h with h
    have h2 : days = res.2.2 := congrArg (fun t => t.2.2) h.symm
    rw [h2, hdget d]
    cases hany : (ws.any fun c => c.date = d) <;> simp [tallyAddAfter, hany]
  · intro hany hdom
    set S := ((ws.filter fun c => c.date = d).map fun c => c.content.runtime).sum with hS
    have hdS : dget res.2.2 d = some S := by
      rw [hdget d, hany]
      rfl
    have hnd : (res.2.2.map Prod.fst).Nodup := by
      rw [hdays]
      exact daysMap_fold_nodup ws [] (by simp)
    have hmem : (d, S) ∈ res.2.2 := dget_mem hdS
    have hdomq : ∀ q ∈ res.2.2, q.1 ≠ d → q.2 < S := by
      intro q hq hqd
      have hq' : dget res.2.2 q.1 = some q.2 := dget_of_mem_nodup (by
        cases q
        exact hq) hnd
      rw [hdget q.1] at hq'
      cases hany' : (ws.any fun c => c.date = q.1) with
      | false => rw [hany'] at hq'; simp [tallyAddAfter] at hq'
      | true =>
        rw [hany'] at hq'
        have : q.2 = ((ws.filter fun c => c.date = q.1).map fun c => c.content.runtime).sum := by
          simpa [tallyAddAfter] using hq'.symm
        rw [this]
        exact hdom q.1 hqd hany'
    have hmax : maxByValue res.2.2 = some (d, S) := maxByValue_dominant hnd hmem hdomq
    refine ⟨res.1, res.2.1, ?_⟩
    unfold get_activity_by_month_and_day
    rw [htab]
    show (match maxByValue res.2.2 with
      | none => none
      | some (d, _) => some (res.1, res.2.1, d)) = some (res.1, res.2.1, d)
    rw [hmax]

/-! ## C10: the calendar report is not total on the empty collection -/

/-- C10: on the empty Watch Event collection the loop accumulators succeed
(the 12 pre-seeded month buckets and 7 weekday buckets are intact), but the
most-active-date lookup takes the maximum of the empty per-date dictionary
and raises, so `get_activity_by_month_and_day` has a non-empty collection as
an unstated precondition. -/
theorem activity_empty_collection_raises :
    get_activity_by_month_and_day ([] : List WatchedContent) = none ∧
    activityTables ([] : List WatchedContent) = some (monthsInit, weekdayInit, []) :=
  ⟨rfl, rfl⟩

/-! ## Witnesses at concrete Watch Event collections -/

/-- Witness for `sum_ranking_reports_sound` at a one-event collection. -/
theorem sum_ranking_reports_sound_witness :
    (∀ c ∈ [sampleEvent], 0 ≤ c.content.runtime) ∧
    (((∀ k v, (k, v) ∈ get_most_watched_genres [sampleEvent] →
        (∃ c ∈ [sampleEvent], k ∈ c.content.genres) ∧ 0 ≤ v) ∧
      (get_most_watched_genres [sampleEvent]).Pairwise (fun p q => q.2 ≤ p.2) ∧
      (get_most_watched_genres [sampleEvent]).length ≤ 20) ∧
    ((∀ k v, (k, v) ∈ get_most_watched_actors [sampleEvent] →
        (∃ c ∈ [sampleEvent], k ∈ c.content.actors) ∧ 0 ≤ v) ∧
      (get_most_watched_actors [sampleEvent]).Pairwise (fun p q => q.2 ≤ p.2) ∧
      (get_most_watched_actors [sampleEvent]).length ≤ 20) ∧
    ((∀ k v, (k, v) ∈ get_most_watched_directors [sampleEvent] →
        (∃ c ∈ [sampleEvent], k ∈ c.content.directors) ∧ 0 ≤ v) ∧
      (get_most_watched_directors [sampleEvent]).Pairwise (fun p q => q.2 ≤ p.2) ∧
      (get_most_watched_directors [sampleEvent]).length ≤ 20) ∧
    ((∀ k v, (k, v) ∈ get_most_watched_production_companies [sampleEvent] →
        (∃ c ∈ [sampleEvent], k ∈ c.content.production_companies) ∧ 0 ≤ v) ∧
      (get_most_watched_production_companies [sampleEvent]).Pairwise
        (fun p q => q.2 ≤ p.2) ∧
      (get_most_watched_production_companies [sampleEvent]).length ≤ 20)) :=
  ⟨by decide, sum_ranking_reports_sound [sampleEvent] (by decide)⟩

/-- Witness for `average_ranking_suppression`: a key occurring in exactly 5
events (and so meeting every threshold) that does appear in all four
average-ranking reports. -/
theorem average_ranking_suppression_witness :
    ("Star" ∈ (get_most_liked_genres starEvents).map Prod.fst) ∧
    ("Star" ∈ (get_most_liked_actors starEvents).map Prod.fst) ∧
    ("Star" ∈ (get_most_liked_production_companies starEvents).map Prod.fst) ∧
    ("Star" ∈ (get_most_liked_directors starEvents).map Prod.fst) ∧
    5 ≤ (starEvents.flatMap fun c => c.content.genres).count "Star" ∧
    5 ≤ (starEvents.flatMap fun c => c.content.actors).count "Star" ∧
    5 ≤ (starEvents.flatMap fun c => c.content.production_companies).count "Star" ∧
    2 ≤ (starEvents.flatMap fun c => c.content.directors).count "Star" := by
  have h1 : ("Star" : String) ∈ (get_most_liked_genres starEvents).map Prod.fst := by
    simp [starEvents, starEvent, starContent, get_most_liked_genres, rankedReport,
      likedScores, likedTallies, likedStep, nlargestKeys, dget, dadd, dinit,
      MIN_THRESHOLD, TOP_N]
  have h2 : ("Star" : String) ∈ (get_most_liked_actors starEvents).map Prod.fst := by
    simp [starEvents, starEvent, starContent, get_most_liked_actors, rankedReport,
      likedScores, likedTallies, likedStep, nlargestKeys, dget, dadd, dinit,
      MIN_THRESHOLD, TOP_N]
  have h3 : ("Star" : String)
      ∈ (get_most_liked_production_companies starEvents).map Prod.fst := by
    simp [starEvents, starEvent, starContent, get_most_liked_production_companies,
      rankedReport, likedScores, likedTallies, likedStep, nlargestKeys, dget, dadd,
      dinit, MIN_THRESHOLD, TOP_N]
  have h4 : ("Star" : String) ∈ (get_most_liked_directors starEvents).map Prod.fst := by
    simp [starEvents, starEvent, starContent, get_most_liked_directors, rankedReport,
      likedScores, likedTallies, likedStep, nlargestKeys, dget, dadd, dinit,
      MIN_THRESHOLD_FOR_DIRECTORS, TOP_N]
  exact ⟨h1, h2, h3, h4,
    (average_ranking_suppression starEvents "Star").1 h1,
    (average_ranking_suppression starEvents "Star").2.1 h2,
    (average_ranking_suppression starEvents "Star").2.2.1 h3,
    (average_ranking_suppression starEvents "Star").2.2.2 h4⟩

/-- Witness for `calendar_activity_buckets` at a one-event collection. -/
theorem calendar_activity_buckets_witness :
    (∀ c ∈ [sampleEvent], 1 ≤ c.date.month ∧ c.date.month ≤ 12) ∧
    (∃ m w days, activityTables [sampleEvent] = some (m, w, days) ∧
      m.map Prod.fst = monthsInit.map Prod.fst ∧
      w.map Prod.fst = weekdayInit.map Prod.fst ∧
      m.length = 12 ∧ w.length = 7 ∧
      (m.map Prod.snd).sum = ([sampleEvent].map fun c => c.content.runtime).sum ∧
      (w.map Prod.snd).sum = ([sampleEvent].map fun c => c.content.runtime).sum) :=
  ⟨by decide, calendar_activity_buckets [sampleEvent] (by decide)⟩

/-- Witness for `same_date_sum_and_most_active`: two events watched on the
same date sum their runtimes under that date key, and that date is returned
as the most-active one. -/
theorem same_date_sum_and_most_active_witness :
    (∀ c ∈ [sampleEvent, sampleEvent2], 1 ≤ c.date.month ∧ c.date.month ≤ 12) ∧
    ([sampleEvent, sampleEvent2].any fun c => c.date = (⟨2021, 3, 1⟩ : Date)) = true ∧
    (∀ m w days, activityTables [sampleEvent, sampleEvent2] = some (m, w, days) →
      dget days (⟨2021, 3, 1⟩ : Date)
        = (if [sampleEvent, sampleEvent2].any (fun c => c.date = (⟨2021, 3, 1⟩ : Date))
           then some ((([sampleEvent, sampleEvent2].filter
               fun c => c.date = (⟨2021, 3, 1⟩ : Date)).map
               fun c => c.content.runtime).sum)
           else none)) ∧
    (∃ m w, get_activity_by_month_and_day [sampleEvent, sampleEvent2]
        = some (m, w, (⟨2021, 3, 1⟩ : Date))) := by
  have hthm := same_date_sum_and_most_active [sampleEvent, sampleEvent2]
    (⟨2021, 3, 1⟩ : Date) (by decide)
  refine ⟨by decide, by decide, fun m w days h => hthm.1 m w days h,
    hthm.2 (by decide) ?_⟩
  intro d' hne ha
  exfalso
  simp only [List.any_cons, List.any_nil, Bool.or_eq_true, Bool.or_false,
    decide_eq_true_eq, sampleEvent, sampleEvent2] at ha
  rcases ha with h | h <;> exact hne (h ▸ rfl)

end YearInReview
